import Mathlib

/-!
Shallow embedding of the cs50-python-platform backend, for checking the
repository's natural-language specification against its code.

The repository contains three route-handler files:
  * `backend/executor_simple.py` — the SQLAlchemy/FastAPI variant with code
    challenges, user submissions and per-challenge progress rows
    (`submit_challenge`, `register`, `get_lessons`, `execute_code`);
  * `backend/main.py` — the sqlite variant with courses/articles/quizzes,
    quiz submission, a generic progress-update endpoint, and the heuristic
    "ML" scoring (`submit_quiz`, `update_progress`, `get_courses`,
    `UserProgressAnalyzer`);
  * `main.py` — the in-memory-dictionary variant (`register`, static
    `LESSONS`).

Each handler is embedded as a pure function over an explicit database state.
Database rows become structures, tables become lists of rows, SQL lookups
become `List.find?`, and HTTP error responses become `Except ApiError`.
Machine floats in the Python source are modelled by exact rationals.
-/

/-- HTTP-level error outcomes raised by the handlers: 404, 400, 401. -/
inductive ApiError where
  | notFound
  | badRequest
  | unauthorized
deriving DecidableEq

/-- Decidable equality of handler outcomes, for evaluating the embedded
handlers on concrete states. -/
instance {ε α : Type} [DecidableEq ε] [DecidableEq α] :
    DecidableEq (Except ε α) := fun x y =>
  match x, y with
  | .error e, .error f =>
    if h : e = f then .isTrue (by rw [h])
    else .isFalse (by intro hc; cases hc; exact h rfl)
  | .error _, .ok _ => .isFalse (by intro hc; cases hc)
  | .ok _, .error _ => .isFalse (by intro hc; cases hc)
  | .ok a, .ok b =>
    if h : a = b then .isTrue (by rw [h])
    else .isFalse (by intro hc; cases hc; exact h rfl)

/-- Rounding to one decimal place, as in the spec's `round(x, 1)`. -/
def round1 (q : ℚ) : ℚ := ((round (10 * q) : ℤ) : ℚ) / 10

/-- Rounding to two decimal places, as in `round(x, 2)`. -/
def round2 (q : ℚ) : ℚ := ((round (100 * q) : ℤ) : ℚ) / 100

/-- Uppercasing of one character, as Python's `str.upper` acts on the ASCII
range (the stored quiz answers and submitted options are option letters). -/
def pyUpperChar (c : Char) : Char :=
  if 'a' ≤ c && c ≤ 'z' then Char.ofNat (c.toNat - 32) else c

/-- Python's `str.upper`. -/
def pyUpper (s : String) : String := ⟨s.data.map pyUpperChar⟩

/-- Python's `str.strip`: drop whitespace from both ends. -/
def pyStrip (s : String) : String :=
  ⟨((s.data.dropWhile Char.isWhitespace).reverse.dropWhile
      Char.isWhitespace).reverse⟩

/-- Byte-wise string comparison, as SQLite's default BINARY collation orders
TEXT values (lexicographic on the character sequence). -/
def strLt (a b : String) : Prop := a.data < b.data

instance : DecidableRel strLt := fun a b =>
  inferInstanceAs (Decidable (a.data < b.data))

namespace Executor

/-- One test case of a challenge: an input fed to the submitted program and
the expected output (`test_cases` JSON entries `{input, expected}`). -/
structure TestCase where
  input : String
  expected : String
deriving DecidableEq

/-- Result dictionary produced by `run_test_cases`. -/
structure TestResult where
  passed : Nat
  total : Nat
  score : ℚ
deriving DecidableEq

/-- Modelled from the spec: the module `executor_simple` providing
`run_test_cases` is imported by the handler file but is absent from the
repository snapshot. Per the spec (§4.1), it executes the candidate code
against each test case's input, compares produced output to the expected
output by exact string equality after trimming, counts passes, and sets
score = passes/total × 100 rounded to one decimal place; execution errors
on a test case count as a failed test. Execution of Python code itself is
abstracted as the oracle `execOut` (code → input → produced output, `none`
when execution raised an error). -/
def run_test_cases (execOut : String → String → Option String)
    (code : String) (test_cases : List TestCase) : TestResult :=
  let passed := (test_cases.filter fun tc =>
    match execOut code tc.input with
    | some out => pyStrip out == pyStrip tc.expected
    | none => false).length
  { passed := passed
    total := test_cases.length
    score := round1 ((passed : ℚ) / (test_cases.length : ℚ) * 100) }

/-- Row of the `users` table (password hashing is orthogonal to the claims;
the stored hash is produced by the `hash` oracle passed to `register`). -/
structure UserRow where
  id : Nat
  username : String
  email : String
  password_hash : String
deriving DecidableEq

/-- Row of the `lessons` table (fields used by the list endpoint). -/
structure Lesson where
  id : Nat
  title : String
  order : Int
deriving DecidableEq

/-- Row of the `challenges` table (fields used by submission). -/
structure Challenge where
  id : Nat
  lesson_id : Nat
  test_cases : List TestCase
deriving DecidableEq

/-- Row of the `user_progress` table. Modelled from the spec: the `models.py`
column defaults are absent from the snapshot; per the spec the row is
"created lazily on first submission" with completion flag false, score 0 and
attempt count 0, at most one row per (user, challenge) pair. -/
structure UserProgress where
  user_id : Nat
  challenge_id : Nat
  completed : Bool
  best_score : ℚ
  attempts : Nat
deriving DecidableEq

/-- Append-only row of the `user_submissions` table. -/
structure UserSubmission where
  user_id : Nat
  challenge_id : Nat
  code : String
  passed_tests : Nat
  total_tests : Nat
  score : ℚ
deriving DecidableEq

/-- The database state of the SQLAlchemy variant. -/
structure DB where
  users : List UserRow
  lessons : List Lesson
  challenges : List Challenge
  progress : List UserProgress
  submissions : List UserSubmission
deriving DecidableEq

/-- The unique progress row for a (user, challenge) pair, as read by
`db.query(UserProgress).filter(...).first()`. -/
def findProgress (db : DB) (uid cid : Nat) : Option UserProgress :=
  db.progress.find? fun p => p.user_id == uid && p.challenge_id == cid

/-- The progress row the handler works on: the existing row of the pair, or
the freshly constructed `UserProgress(user_id=..., challenge_id=...)` with
the default column values when none exists yet. -/
def progressRead (db : DB) (uid cid : Nat) : UserProgress :=
  (findProgress db uid cid).getD
    { user_id := uid, challenge_id := cid
      completed := false, best_score := 0, attempts := 0 }

/-- Write back the mutated progress row: the ORM updates the unique
(user, challenge) row in place, or the freshly `db.add`ed row is inserted
when none existed (uniqueness of the pair is the data model's constraint). -/
def setProgress : List UserProgress → Nat → Nat → UserProgress → List UserProgress
  | [], _, _, p1 => [p1]
  | p :: rest, uid, cid, p1 =>
    if p.user_id == uid && p.challenge_id == cid then p1 :: rest
    else p :: setProgress rest uid cid p1

/-- Handler `POST /api/challenges/{challenge_id}/submit` (`submit_challenge`):
look up the challenge (404 when absent), run the test cases, append a
submission row, then create-or-update the progress row: increment attempts,
take the max of best_score and the new score, and set completed when all
tests passed. `uid` is the authenticated user's id (token decoding is
orthogonal to the claims). -/
def submit_challenge (execOut : String → String → Option String)
    (db : DB) (uid cid : Nat) (code : String) :
    Except ApiError (DB × UserSubmission) :=
  match db.challenges.find? (fun c => c.id == cid) with
  | none => .error .notFound
  | some challenge =>
    let tr := run_test_cases execOut code challenge.test_cases
    let sub : UserSubmission :=
      { user_id := uid, challenge_id := cid, code := code
        passed_tests := tr.passed, total_tests := tr.total, score := tr.score }
    let p0 := progressRead db uid cid
    let p1 : UserProgress :=
      { user_id := uid
        challenge_id := cid
        attempts := p0.attempts + 1
        best_score := max p0.best_score tr.score
        completed := if tr.passed == tr.total then true else p0.completed }
    .ok ({ db with
            progress := setProgress db.progress uid cid p1
            submissions := db.submissions ++ [sub] }, sub)

/-- Handler `POST /api/register` of the SQLAlchemy variant: reject when an
existing user has the same username or the same email, otherwise insert a
new row (autoincrement id modelled as list length + 1). -/
def register (hash : String → String) (db : DB)
    (username email password : String) : Except ApiError (DB × UserRow) :=
  if db.users.any (fun x => x.username == username || x.email == email) then
    .error .badRequest
  else
    let nu : UserRow :=
      { id := db.users.length + 1, username := username, email := email
        password_hash := hash password }
    .ok ({ db with users := db.users ++ [nu] }, nu)

/-- Ordering used by `GET /api/lessons`: `order_by(Lesson.order)`. -/
def lessonLE (a b : Lesson) : Prop := a.order ≤ b.order

instance : DecidableRel lessonLE := fun a b =>
  inferInstanceAs (Decidable (a.order ≤ b.order))

/-- Handler `GET /api/lessons`: all lessons ordered by their `order` column. -/
def get_lessons (db : DB) : List Lesson :=
  db.lessons.insertionSort lessonLE

/-- Handler `POST /api/code/execute` (`execute_code`): `if not code` —
a missing or empty body is rejected with 400, otherwise the code is run
(running itself abstracted as the `runner` oracle). -/
def execute_code (runner : String → String) (code : Option String) :
    Except ApiError String :=
  if code.getD "" = "" then .error .badRequest
  else .ok (runner (code.getD ""))

/-- Sequence of submissions by one user against one challenge, folding
`submit_challenge` over the submitted code texts (a failed lookup leaves the
state unchanged; under the hypotheses of the theorems it never occurs). -/
def submitMany (execOut : String → String → Option String)
    (db : DB) (uid cid : Nat) : List String → DB
  | [] => db
  | c :: cs =>
    match submit_challenge execOut db uid cid c with
    | .ok (db1, _) => submitMany execOut db1 uid cid cs
    | .error _ => submitMany execOut db uid cid cs

/-- The best_score recorded for a (user, challenge) pair, 0 when no row. -/
def bestScore (db : DB) (uid cid : Nat) : ℚ :=
  ((findProgress db uid cid).map fun p => p.best_score).getD 0

/-- The completed flag recorded for a (user, challenge) pair. -/
def completedFlag (db : DB) (uid cid : Nat) : Bool :=
  ((findProgress db uid cid).map fun p => p.completed).getD false

/-- The score `run_test_cases` assigns to one submission. -/
def scoreOf (execOut : String → String → Option String)
    (ch : Challenge) (code : String) : ℚ :=
  (run_test_cases execOut code ch.test_cases).score

end Executor

namespace Platform

/-- Row of the sqlite `users` table. -/
structure UserRow where
  id : Nat
  username : String
  email : String
  password_hash : String
  total_points : Int
deriving DecidableEq

/-- Row of the sqlite `quizzes` table (fields read by `submit_quiz`). -/
structure QuizRow where
  id : Nat
  article_id : Nat
  correct_answer : String
  points : Int
deriving DecidableEq

/-- Row of the sqlite `user_progress` table: one row per (user, article),
enforced by `UNIQUE(user_id, article_id)`. -/
structure ProgressRow where
  user_id : Nat
  article_id : Nat
  completed : Bool
  score : Int
deriving DecidableEq

/-- Row of the sqlite `courses` table (fields read by the list endpoint;
description and icon do not enter any ordering or claim). -/
structure CourseRow where
  id : Nat
  title : String
  level : String
  order_num : Int
deriving DecidableEq

/-- The database state of the sqlite variant. -/
structure DB where
  users : List UserRow
  quizzes : List QuizRow
  user_progress : List ProgressRow
  courses : List CourseRow
deriving DecidableEq

/-- Response dictionary of `POST /api/quiz/submit`; the Python value `None`
for `correct_answer` on a correct submission is `Option.none`. -/
structure QuizResponse where
  correct : Bool
  points_earned : Int
  correct_answer : Option String
deriving DecidableEq

/-- Handler `POST /api/quiz/submit` (`submit_quiz`): look up the quiz (404
when absent); compare the submitted answer to the stored correct answer
case-insensitively (`.upper()` on both); on a match add the quiz's points to
the total_points of every users row whose id is `user_id` (the UPDATE's
WHERE clause — no row need match); reveal the stored answer only on a
mismatch. -/
def submit_quiz (db : DB) (user_id quiz_id : Nat) (answer : String) :
    Except ApiError (DB × QuizResponse) :=
  match db.quizzes.find? (fun q => q.id == quiz_id) with
  | none => .error .notFound
  | some quiz =>
    let is_correct := pyUpper answer == pyUpper quiz.correct_answer
    let points_earned : Int := if is_correct then quiz.points else 0
    let users1 :=
      if is_correct then
        db.users.map fun u =>
          if u.id == user_id then
            { u with total_points := u.total_points + points_earned }
          else u
      else db.users
    .ok ({ db with users := users1 },
      { correct := is_correct
        points_earned := points_earned
        correct_answer := if is_correct then none else some quiz.correct_answer })

/-- Handler `POST /api/progress` (`update_progress`): upsert on the unique
(user_id, article_id) key — `INSERT ... ON CONFLICT(user_id, article_id)
DO UPDATE SET completed = ?, score = ?` with the client-supplied values. -/
def update_progress (db : DB) (user_id article_id : Nat)
    (completed : Bool) (score : Int) : DB :=
  if (db.user_progress.any fun p =>
      p.user_id == user_id && p.article_id == article_id) then
    { db with user_progress := db.user_progress.map fun p =>
        if p.user_id == user_id && p.article_id == article_id then
          { p with completed := completed, score := score }
        else p }
  else
    { db with user_progress := db.user_progress ++
        [{ user_id := user_id, article_id := article_id
           completed := completed, score := score }] }

/-- The completed flag of the (user, article) progress row, false when the
row is absent. -/
def articleCompleted (db : DB) (user_id article_id : Nat) : Bool :=
  ((db.user_progress.find? fun p =>
      p.user_id == user_id && p.article_id == article_id).map
    fun p => p.completed).getD false

/-- Ordering of `GET /api/courses?level=...`: `ORDER BY order_num`. -/
def courseOrderLE (a b : CourseRow) : Prop := a.order_num ≤ b.order_num

instance : DecidableRel courseOrderLE := fun a b =>
  inferInstanceAs (Decidable (a.order_num ≤ b.order_num))

/-- Ordering of the unfiltered `GET /api/courses`: `ORDER BY level,
order_num` — lexicographic on (level string, order_num). -/
def courseLevelLE (a b : CourseRow) : Prop :=
  strLt a.level b.level ∨ (a.level = b.level ∧ a.order_num ≤ b.order_num)

instance : DecidableRel courseLevelLE := fun a b =>
  inferInstanceAs (Decidable
    (strLt a.level b.level ∨ (a.level = b.level ∧ a.order_num ≤ b.order_num)))

/-- Handler `GET /api/courses` (`get_courses`): with a (truthy) level filter,
courses of that level ordered by order_num; without one, all courses ordered
by (level, order_num). -/
def get_courses (db : DB) (level : Option String) : List CourseRow :=
  if level.getD "" ≠ "" then
    ((db.courses.filter fun c => c.level == level.getD "").insertionSort
      courseOrderLE)
  else
    db.courses.insertionSort courseLevelLE

/-- The five course rows inserted by `POST /api/seed-data`. -/
def seedCourses : List CourseRow :=
  [ { id := 1, title := "Python Basics", level := "beginner", order_num := 1 }
  , { id := 2, title := "Data Types and Variables", level := "beginner", order_num := 2 }
  , { id := 3, title := "Control Flow", level := "intermediate", order_num := 3 }
  , { id := 4, title := "Functions", level := "intermediate", order_num := 4 }
  , { id := 5, title := "OOP Concepts", level := "advanced", order_num := 5 } ]

/-- The four normalized feature scores computed by
`UserProgressAnalyzer.preprocess_user_data` from the aggregation query's
results (total_attempts, avg_score, completed_count, active_days; the
unused avg_completed_score aggregate is omitted). -/
structure UserFeatures where
  engagement_score : ℚ
  performance_score : ℚ
  completion_rate : ℚ
  consistency_score : ℚ
deriving DecidableEq

/-- `preprocess_user_data`, as a function of the aggregates: engagement =
min(active_days/30, 1); performance = avg_score/100 when avg_score is
truthy, else 0; completion_rate = completed_count / max(total_attempts, 1);
consistency = min(active_days/14, 1). -/
def preprocess_user_data (total_attempts : Nat) (avg_score : ℚ)
    (completed_count : Nat) (active_days : Nat) : UserFeatures :=
  { engagement_score := min ((active_days : ℚ) / 30) 1
    performance_score := if avg_score = 0 then 0 else avg_score / 100
    completion_rate := (completed_count : ℚ) / ((max total_attempts 1 : Nat) : ℚ)
    consistency_score := min ((active_days : ℚ) / 14) 1 }

/-- The per-level constant of `predict_difficulty`:
`level_weights.get(lesson_level, 0.5)`. -/
def level_weight (lesson_level : String) : ℚ :=
  if lesson_level = "beginner" then 3/10
  else if lesson_level = "intermediate" then 6/10
  else if lesson_level = "advanced" then 9/10
  else 1/2

/-- The weighted skill estimate of `predict_difficulty`. -/
def user_skill (f : UserFeatures) : ℚ :=
  f.engagement_score * (25/100) + f.performance_score * (50/100) +
    f.completion_rate * (15/100) + f.consistency_score * (10/100)

/-- Output of `UserProgressAnalyzer.predict_difficulty` (label and the
rounded percentage fields of the response). -/
structure Prediction where
  predicted_difficulty : String
  confidence_score : ℚ
  user_skill_level : ℚ
  lesson_difficulty_score : ℚ
deriving DecidableEq

/-- `UserProgressAnalyzer.predict_difficulty`: absolute difference between
the per-level constant and the skill estimate, mapped to a label by the
thresholds 0.3 and 0.6. -/
def predict_difficulty (f : UserFeatures) (lesson_level : String) :
    Prediction :=
  let lesson_difficulty := level_weight lesson_level
  let skill := user_skill f
  let d := |lesson_difficulty - skill|
  { predicted_difficulty :=
      if d < 3/10 then "Easy" else if d < 6/10 then "Moderate"
      else "Challenging"
    confidence_score := round2 ((1 - d) * 100)
    user_skill_level := round2 (skill * 100)
    lesson_difficulty_score := round2 (lesson_difficulty * 100) }

end Platform

namespace Mem

/-- Value stored in the in-memory `users_db` dictionary of the plain
variant (`main.py`), keyed by username; modelled as an insertion-ordered
association list of these records. -/
structure MemUser where
  username : String
  email : String
  password : String
deriving DecidableEq

/-- Handler `POST /api/register` of the in-memory variant: reject only when
the username is already a key of `users_db`; the email is not checked. -/
def register (users_db : List MemUser) (u : MemUser) :
    Except ApiError (List MemUser) :=
  if users_db.any (fun x => x.username == u.username) then .error .badRequest
  else .ok (users_db ++ [u])

/-- An entry of the static `LESSONS` list (fields used by the claims). -/
structure MemLesson where
  id : String
  title : String
  order : Nat
deriving DecidableEq

/-- The static `LESSONS` list of the in-memory variant. -/
def LESSONS : List MemLesson :=
  [ { id := "1", title := "Introduction to Python", order := 1 }
  , { id := "2", title := "Conditionals and Loops", order := 2 }
  , { id := "3", title := "Functions and Variables", order := 3 }
  , { id := "4", title := "Lists and Dictionaries", order := 4 } ]

/-- Handler `GET /api/lessons` of the in-memory variant: returns `LESSONS`
as stored, with no sorting step. -/
def get_lessons : List MemLesson := LESSONS

end Mem

/-- Concrete challenge used by the Executor witnesses. -/
def wCh : Executor.Challenge :=
  { id := 1, lesson_id := 1, test_cases := [{ input := "", expected := "ok" }] }

/-- Concrete database state used by the Executor witnesses. -/
def wDB : Executor.DB :=
  { users := [{ id := 1, username := "alice", email := "a@x", password_hash := "h" }]
    lessons := []
    challenges := [wCh]
    progress := []
    submissions := [] }

/-- Concrete execution oracle whose runs always print `ok`. -/
def wExec : String → String → Option String := fun _ _ => some "ok"

/-- Concrete sqlite-variant state with a completed progress row. -/
def pDB0 : Platform.DB :=
  { users := [], quizzes := []
    user_progress := [{ user_id := 1, article_id := 1, completed := true, score := 100 }]
    courses := [] }

/-- Concrete execution oracle whose runs always raise an error. -/
def wExecFail : String → String → Option String := fun _ _ => none

/-- Concrete Executor state whose pair (1, 1) is already completed. -/
def wDBdone : Executor.DB :=
  { users := [{ id := 1, username := "alice", email := "a@x", password_hash := "h" }]
    lessons := []
    challenges := [wCh]
    progress := [{ user_id := 1, challenge_id := 1, completed := true
                   best_score := 100, attempts := 3 }]
    submissions := [] }

/-- Concrete quiz row used by the Platform witnesses. -/
def wQuiz : Platform.QuizRow :=
  { id := 1, article_id := 1, correct_answer := "B", points := 10 }

/-- Concrete sqlite-variant state used by the Platform witnesses. -/
def wQDB : Platform.DB :=
  { users := [{ id := 7, username := "u", email := "e@x", password_hash := "h"
                total_points := 5 }]
    quizzes := [wQuiz]
    user_progress := []
    courses := [] }

/-- Concrete sqlite-variant state holding the seeded course rows. -/
def wCDB : Platform.DB :=
  { users := [], quizzes := [], user_progress := []
    courses := Platform.seedCourses }

instance : IsTotal Executor.Lesson Executor.lessonLE :=
  ⟨fun a b => le_total a.order b.order⟩

instance : IsTrans Executor.Lesson Executor.lessonLE :=
  ⟨fun _ _ _ hab hbc => le_trans hab hbc⟩

instance : IsTotal Platform.CourseRow Platform.courseOrderLE :=
  ⟨fun a b => le_total a.order_num b.order_num⟩

instance : IsTrans Platform.CourseRow Platform.courseOrderLE :=
  ⟨fun _ _ _ hab hbc => le_trans hab hbc⟩

instance : IsTotal Platform.CourseRow Platform.courseLevelLE := by
  constructor
  intro a b
  rcases lt_trichotomy a.level.data b.level.data with h | h | h
  · exact Or.inl (Or.inl h)
  · have heq : a.level = b.level := String.ext h
    rcases le_total a.order_num b.order_num with hle | hle
    · exact Or.inl (Or.inr ⟨heq, hle⟩)
    · exact Or.inr (Or.inr ⟨heq.symm, hle⟩)
  · exact Or.inr (Or.inl h)

instance : IsTrans Platform.CourseRow Platform.courseLevelLE := by
  constructor
  intro a b c hab hbc
  rcases hab with hab | ⟨habe, hable⟩
  · rcases hbc with hbc | ⟨hbce, hbcle⟩
    · exact Or.inl (lt_trans hab hbc)
    · exact Or.inl (by rw [← hbce]; exact hab)
  · rcases hbc with hbc | ⟨hbce, hbcle⟩
    · exact Or.inl (by rw [habe]; exact hbc)
    · exact Or.inr ⟨habe.trans hbce, le_trans hable hbcle⟩

/-! Helper lemmas shared by the claim theorems. -/

/-- Unfolding of the success path of `submit_challenge`: when the challenge
lookup succeeds, the handler returns the new submission row and the state
with that row appended and the progress row written back. -/
theorem submit_challenge_of_find (execOut : String → String → Option String)
    (db : Executor.DB) (uid cid : Nat) (code : String) (ch : Executor.Challenge)
    (hch : db.challenges.find? (fun c => c.id == cid) = some ch) :
    Executor.submit_challenge execOut db uid cid code =
      .ok ({ db with
              progress := Executor.setProgress db.progress uid cid
                { user_id := uid
                  challenge_id := cid
                  attempts := (Executor.progressRead db uid cid).attempts + 1
                  best_score := max (Executor.progressRead db uid cid).best_score
                    (Executor.run_test_cases execOut code ch.test_cases).score
                  completed :=
                    if (Executor.run_test_cases execOut code ch.test_cases).passed ==
                        (Executor.run_test_cases execOut code ch.test_cases).total then
                      true
                    else (Executor.progressRead db uid cid).completed }
              submissions := db.submissions ++
                [{ user_id := uid, challenge_id := cid, code := code
                   passed_tests := (Executor.run_test_cases execOut code ch.test_cases).passed
                   total_tests := (Executor.run_test_cases execOut code ch.test_cases).total
                   score := (Executor.run_test_cases execOut code ch.test_cases).score }] },
        { user_id := uid, challenge_id := cid, code := code
          passed_tests := (Executor.run_test_cases execOut code ch.test_cases).passed
          total_tests := (Executor.run_test_cases execOut code ch.test_cases).total
          score := (Executor.run_test_cases execOut code ch.test_cases).score }) := by
  unfold Executor.submit_challenge
  rw [hch]

/-- The written-back row is the one the pair's next lookup finds. -/
theorem find_setProgress_self (l : List Executor.UserProgress) (uid cid : Nat)
    (p1 : Executor.UserProgress) (h1 : p1.user_id = uid) (h2 : p1.challenge_id = cid) :
    (Executor.setProgress l uid cid p1).find?
      (fun p => p.user_id == uid && p.challenge_id == cid) = some p1 := by
  have hp1 : (p1.user_id == uid && p1.challenge_id == cid) = true := by
    simp [h1, h2]
  induction l with
  | nil =>
    simp [Executor.setProgress, hp1]
  | cons p rest ih =>
    simp only [Executor.setProgress]
    by_cases h : (p.user_id == uid && p.challenge_id == cid) = true
    · rw [if_pos h]
      exact List.find?_cons_of_pos _ hp1
    · rw [if_neg h]
      rw [List.find?_cons_of_neg _ (by simp [h]), ih]

/-- Writing back the pair's row leaves every other pair's lookup unchanged. -/
theorem find_setProgress_other (l : List Executor.UserProgress) (uid cid u c : Nat)
    (p1 : Executor.UserProgress) (hne : ¬(uid = u ∧ cid = c))
    (h1 : p1.user_id = uid) (h2 : p1.challenge_id = cid) :
    (Executor.setProgress l uid cid p1).find?
        (fun p => p.user_id == u && p.challenge_id == c) =
      l.find? (fun p => p.user_id == u && p.challenge_id == c) := by
  have huc : (uid == u && cid == c) = false := by
    by_cases hu : uid = u
    · have hc : ¬ cid = c := fun hcc => hne ⟨hu, hcc⟩
      simp [hc]
    · simp [hu]
  have hp1 : (p1.user_id == u && p1.challenge_id == c) = false := by
    rw [h1, h2]; exact huc
  induction l with
  | nil =>
    simp [Executor.setProgress, hp1]
  | cons p rest ih =>
    simp only [Executor.setProgress]
    by_cases h : (p.user_id == uid && p.challenge_id == cid) = true
    · rw [if_pos h]
      have hids : p.user_id = uid ∧ p.challenge_id = cid := by
        simpa using h
      have hp : (p.user_id == u && p.challenge_id == c) = false := by
        rw [hids.1, hids.2]; exact huc
      simp only [List.find?, hp1, hp]
    · rw [if_neg h]
      simp only [List.find?]
      cases hp : (p.user_id == u && p.challenge_id == c) with
      | true => rfl
      | false => exact ih


/-- Reading the working row's best_score is reading the pair's recorded
best_score (0 when the row does not exist yet). -/
theorem progressRead_best (db : Executor.DB) (uid cid : Nat) :
    (Executor.progressRead db uid cid).best_score = Executor.bestScore db uid cid := by
  unfold Executor.progressRead Executor.bestScore
  cases Executor.findProgress db uid cid <;> rfl

/-- Reading the working row's completed flag is reading the pair's recorded
flag (false when the row does not exist yet). -/
theorem progressRead_completed (db : Executor.DB) (uid cid : Nat) :
    (Executor.progressRead db uid cid).completed = Executor.completedFlag db uid cid := by
  unfold Executor.progressRead Executor.completedFlag
  cases Executor.findProgress db uid cid <;> rfl

/-- Rounding to one decimal preserves nonnegativity. -/
theorem round1_nonneg (q : ℚ) (hq : 0 ≤ q) : 0 ≤ round1 q := by
  have h : (0 : ℤ) ≤ round (10 * q) := by
    rw [round_eq]
    exact Int.floor_nonneg.2 (by positivity)
  have h2 : (0 : ℚ) ≤ ((round (10 * q) : ℤ) : ℚ) := by exact_mod_cast h
  rw [round1]
  exact div_nonneg h2 (by norm_num)

/-- Every submission score is nonnegative. -/
theorem scoreOf_nonneg (execOut : String → String → Option String)
    (ch : Executor.Challenge) (code : String) :
    0 ≤ Executor.scoreOf execOut ch code := by
  unfold Executor.scoreOf Executor.run_test_cases
  exact round1_nonneg _ (by positivity)

/-- The fold computing a running maximum never goes below its start. -/
theorem foldl_max_init_le (l : List ℚ) (b : ℚ) : b ≤ l.foldl max b := by
  induction l generalizing b with
  | nil => simp
  | cons x xs ih => exact le_trans (le_max_left b x) (ih (max b x))

/-- The fold computing a running maximum bounds every list element. -/
theorem le_foldl_max (l : List ℚ) : ∀ b : ℚ, ∀ s ∈ l, s ≤ l.foldl max b := by
  induction l with
  | nil =>
    intro b s hs
    cases hs
  | cons x xs ih =>
    intro b s hs
    rcases List.mem_cons.1 hs with h | h
    · subst h
      exact le_trans (le_max_right b s) (foldl_max_init_le xs (max b s))
    · exact ih (max b x) s h

/-- The running maximum is the start or one of the elements. -/
theorem foldl_max_mem (l : List ℚ) : ∀ b : ℚ, l.foldl max b = b ∨ l.foldl max b ∈ l := by
  induction l with
  | nil =>
    intro b
    exact Or.inl rfl
  | cons x xs ih =>
    intro b
    rw [List.foldl_cons]
    rcases ih (max b x) with h | h
    · rw [h]
      rcases max_choice b x with hm | hm
      · exact Or.inl hm
      · exact Or.inr (by rw [hm]; exact List.mem_cons_self x xs)
    · exact Or.inr (List.mem_cons_of_mem x h)

/-- A successful submission does not touch the challenges table. -/
theorem submit_challenge_challenges (execOut : String → String → Option String)
    (db : Executor.DB) (uid cid : Nat) (code : String)
    (db1 : Executor.DB) (sub : Executor.UserSubmission)
    (h : Executor.submit_challenge execOut db uid cid code = .ok (db1, sub)) :
    db1.challenges = db.challenges := by
  unfold Executor.submit_challenge at h
  cases hch : db.challenges.find? (fun c => c.id == cid) with
  | none =>
    rw [hch] at h
    cases h
  | some ch =>
    rw [hch] at h
    cases h
    rfl

/-- Folding submissions over an appended list is folding them in turn. -/
theorem submitMany_append (execOut : String → String → Option String)
    (db : Executor.DB) (uid cid : Nat) (l1 l2 : List String) :
    Executor.submitMany execOut db uid cid (l1 ++ l2) =
      Executor.submitMany execOut (Executor.submitMany execOut db uid cid l1)
        uid cid l2 := by
  induction l1 generalizing db with
  | nil => rfl
  | cons c cs ih =>
    rw [List.cons_append]
    show (match Executor.submit_challenge execOut db uid cid c with
      | .ok (db1, _) => Executor.submitMany execOut db1 uid cid (cs ++ l2)
      | .error _ => Executor.submitMany execOut db uid cid (cs ++ l2)) = _
    cases hs : Executor.submit_challenge execOut db uid cid c with
    | ok pr =>
      cases pr with
      | mk db1 sub =>
        show Executor.submitMany execOut db1 uid cid (cs ++ l2) = _
        rw [ih db1]
        congr 1
        show _ = (match Executor.submit_challenge execOut db uid cid c with
          | .ok (db1, _) => Executor.submitMany execOut db1 uid cid cs
          | .error _ => Executor.submitMany execOut db uid cid cs)
        rw [hs]
    | error e =>
      show Executor.submitMany execOut db uid cid (cs ++ l2) = _
      rw [ih db]
      congr 1
      show _ = (match Executor.submit_challenge execOut db uid cid c with
        | .ok (db1, _) => Executor.submitMany execOut db1 uid cid cs
        | .error _ => Executor.submitMany execOut db uid cid cs)
      rw [hs]

/-- One successful submission updates the pair's best_score to the max of the
old best_score and the new score, and preserves the challenges table. -/
theorem bestScore_submit (execOut : String → String → Option String)
    (db : Executor.DB) (uid cid : Nat) (code : String) (ch : Executor.Challenge)
    (hch : db.challenges.find? (fun c => c.id == cid) = some ch) :
    ∃ db1 sub, Executor.submit_challenge execOut db uid cid code = .ok (db1, sub) ∧
      Executor.bestScore db1 uid cid =
        max (Executor.bestScore db uid cid) (Executor.scoreOf execOut ch code) ∧
      db1.challenges = db.challenges := by
  refine ⟨_, _, submit_challenge_of_find execOut db uid cid code ch hch, ?_, rfl⟩
  unfold Executor.bestScore Executor.findProgress
  rw [show ({ db with
      progress := Executor.setProgress db.progress uid cid _
      submissions := _ } : Executor.DB).progress =
      Executor.setProgress db.progress uid cid _ from rfl]
  rw [find_setProgress_self db.progress uid cid _ rfl rfl]
  show max (Executor.progressRead db uid cid).best_score _ = _
  rw [progressRead_best]
  rfl

/-- The best_score after a sequence of submissions is the running maximum of
the sequence's scores, started at the pair's prior best_score. -/
theorem bestScore_submitMany (execOut : String → String → Option String)
    (db : Executor.DB) (uid cid : Nat) (ch : Executor.Challenge)
    (codes : List String)
    (hch : db.challenges.find? (fun c => c.id == cid) = some ch) :
    Executor.bestScore (Executor.submitMany execOut db uid cid codes) uid cid =
      (codes.map fun code => Executor.scoreOf execOut ch code).foldl max
        (Executor.bestScore db uid cid) := by
  induction codes generalizing db with
  | nil => rfl
  | cons c cs ih =>
    obtain ⟨db1, sub, hok, hbest, hchs⟩ := bestScore_submit execOut db uid cid c ch hch
    show Executor.bestScore
      (match Executor.submit_challenge execOut db uid cid c with
        | .ok (db1, _) => Executor.submitMany execOut db1 uid cid cs
        | .error _ => Executor.submitMany execOut db uid cid cs) uid cid = _
    rw [hok]
    show Executor.bestScore (Executor.submitMany execOut db1 uid cid cs) uid cid = _
    rw [ih db1 (by rw [hchs]; exact hch), hbest]
    rfl

/-! Claim theorems. -/

/-- C1: for every challenge submission against an existing challenge with N
test cases of which k pass, the handler records a submission whose score is
round(k/N*100, 1), and when k = N it sets the pair's UserProgress row's
completed flag to true. -/
theorem claim1_submit_score_completed (execOut : String → String → Option String)
    (db : Executor.DB) (uid cid : Nat) (code : String)
    (ch : Executor.Challenge) (N k : Nat)
    (hch : db.challenges.find? (fun c => c.id == cid) = some ch)
    (hN : ch.test_cases.length = N) (_hNpos : 0 < N)
    (hk : (Executor.run_test_cases execOut code ch.test_cases).passed = k) :
    ∃ db1 sub, Executor.submit_challenge execOut db uid cid code = .ok (db1, sub) ∧
      sub.score = round1 ((k : ℚ) / (N : ℚ) * 100) ∧
      db1.submissions = db.submissions ++ [sub] ∧
      (k = N → ∃ p, Executor.findProgress db1 uid cid = some p ∧
        p.completed = true) := by
  refine ⟨_, _, submit_challenge_of_find execOut db uid cid code ch hch, ?_, rfl, ?_⟩
  · have hs : (Executor.run_test_cases execOut code ch.test_cases).score =
        round1 (((Executor.run_test_cases execOut code ch.test_cases).passed : ℚ) /
          ((ch.test_cases.length : ℚ)) * 100) := rfl
    show (Executor.run_test_cases execOut code ch.test_cases).score = _
    rw [hs, hk, hN]
  · intro hkN
    have htot : (Executor.run_test_cases execOut code ch.test_cases).total = N := by
      show ch.test_cases.length = N
      exact hN
    have hcond : ((Executor.run_test_cases execOut code ch.test_cases).passed ==
        (Executor.run_test_cases execOut code ch.test_cases).total) = true := by
      rw [hk, hkN, htot]
      exact beq_self_eq_true N
    have hfind := find_setProgress_self db.progress uid cid
      { user_id := uid
        challenge_id := cid
        attempts := (Executor.progressRead db uid cid).attempts + 1
        best_score := max (Executor.progressRead db uid cid).best_score
          (Executor.run_test_cases execOut code ch.test_cases).score
        completed :=
          if (Executor.run_test_cases execOut code ch.test_cases).passed ==
              (Executor.run_test_cases execOut code ch.test_cases).total then true
          else (Executor.progressRead db uid cid).completed } rfl rfl
    refine ⟨_, hfind, ?_⟩
    show (if (Executor.run_test_cases execOut code ch.test_cases).passed ==
        (Executor.run_test_cases execOut code ch.test_cases).total then true
      else (Executor.progressRead db uid cid).completed) = true
    simp [hcond]

/-- Witness for C1: at the concrete state, one passing submission gets score
round(1/1*100, 1) and completes the pair's progress row. -/
theorem claim1_submit_score_completed_witness :
    ∃ db1 sub, Executor.submit_challenge wExec wDB 1 1 "code" = .ok (db1, sub) ∧
      sub.score = round1 ((1 : ℚ) / (1 : ℚ) * 100) ∧
      db1.submissions = wDB.submissions ++ [sub] ∧
      (1 = 1 → ∃ p, Executor.findProgress db1 1 1 = some p ∧
        p.completed = true) :=
  claim1_submit_score_completed wExec wDB 1 1 "code" wCh 1 1
    (by decide) (by decide) (by decide) (by decide)

/-- C2: starting with no progress row for the pair, after every sequence of
submissions the pair's best_score equals the maximum score observed across
the sequence's submissions (their running maximum from 0, which bounds every
score and, for a nonempty sequence, is one of them), and extending the
sequence never decreases it. -/
theorem claim2_best_score_is_max (execOut : String → String → Option String)
    (db : Executor.DB) (uid cid : Nat) (ch : Executor.Challenge)
    (codes more : List String)
    (hch : db.challenges.find? (fun c => c.id == cid) = some ch)
    (h0 : Executor.findProgress db uid cid = none) :
    Executor.bestScore (Executor.submitMany execOut db uid cid codes) uid cid =
        (codes.map fun code => Executor.scoreOf execOut ch code).foldl max 0 ∧
      (∀ code ∈ codes, Executor.scoreOf execOut ch code ≤
        Executor.bestScore (Executor.submitMany execOut db uid cid codes) uid cid) ∧
      (codes ≠ [] →
        Executor.bestScore (Executor.submitMany execOut db uid cid codes) uid cid ∈
          codes.map fun code => Executor.scoreOf execOut ch code) ∧
      Executor.bestScore (Executor.submitMany execOut db uid cid codes) uid cid ≤
        Executor.bestScore (Executor.submitMany execOut db uid cid (codes ++ more))
          uid cid := by
  have hb0 : Executor.bestScore db uid cid = 0 := by
    unfold Executor.bestScore
    rw [h0]
    rfl
  have hmain : Executor.bestScore (Executor.submitMany execOut db uid cid codes)
      uid cid = (codes.map fun code => Executor.scoreOf execOut ch code).foldl max 0 := by
    rw [bestScore_submitMany execOut db uid cid ch codes hch, hb0]
  refine ⟨hmain, ?_, ?_, ?_⟩
  · intro code hcode
    rw [hmain]
    exact le_foldl_max _ 0 _ (List.mem_map_of_mem _ hcode)
  · intro hne
    rw [hmain]
    rcases foldl_max_mem (codes.map fun code => Executor.scoreOf execOut ch code) 0
      with h | h
    · obtain ⟨c0, hc0⟩ := List.exists_mem_of_ne_nil codes hne
      have h1 : Executor.scoreOf execOut ch c0 ≤ 0 := by
        rw [← h]
        exact le_foldl_max _ 0 _ (List.mem_map_of_mem _ hc0)
      have h2 : Executor.scoreOf execOut ch c0 = 0 :=
        le_antisymm h1 (scoreOf_nonneg execOut ch c0)
      rw [h, ← h2]
      exact List.mem_map_of_mem _ hc0
    · exact h
  · rw [submitMany_append]
    have hchs : (Executor.submitMany execOut db uid cid codes).challenges.find?
        (fun c => c.id == cid) = some ch := by
      have : (Executor.submitMany execOut db uid cid codes).challenges =
          db.challenges := by
        clear hmain hb0 h0
        induction codes generalizing db with
        | nil => rfl
        | cons c cs ih =>
          show (match Executor.submit_challenge execOut db uid cid c with
            | .ok (db1, _) => Executor.submitMany execOut db1 uid cid cs
            | .error _ => Executor.submitMany execOut db uid cid cs).challenges = _
          cases hs : Executor.submit_challenge execOut db uid cid c with
          | ok pr =>
            cases pr with
            | mk db1 sub =>
              rw [ih db1 (by rw [submit_challenge_challenges execOut db uid cid c
                db1 sub hs]; exact hch)]
              exact submit_challenge_challenges execOut db uid cid c db1 sub hs
          | error e => exact ih db hch
      rw [this]
      exact hch
    rw [bestScore_submitMany execOut _ uid cid ch more hchs]
    exact foldl_max_init_le _ _

/-- Witness for C2 at the concrete state: two submissions, one failing and
one passing. -/
theorem claim2_best_score_is_max_witness :
    Executor.bestScore (Executor.submitMany wExec wDB 1 1 ["a", "b"]) 1 1 =
        ((["a", "b"]).map fun code => Executor.scoreOf wExec wCh code).foldl max 0 ∧
      (∀ code ∈ ["a", "b"], Executor.scoreOf wExec wCh code ≤
        Executor.bestScore (Executor.submitMany wExec wDB 1 1 ["a", "b"]) 1 1) ∧
      ((["a", "b"] : List String) ≠ [] →
        Executor.bestScore (Executor.submitMany wExec wDB 1 1 ["a", "b"]) 1 1 ∈
          (["a", "b"]).map fun code => Executor.scoreOf wExec wCh code) ∧
      Executor.bestScore (Executor.submitMany wExec wDB 1 1 ["a", "b"]) 1 1 ≤
        Executor.bestScore (Executor.submitMany wExec wDB 1 1 (["a", "b"] ++ ["c"])) 1 1 :=
  claim2_best_score_is_max wExec wDB 1 1 wCh ["a", "b"] ["c"]
    (by decide) (by decide)

/-- C3 counterexample: the generic progress-update endpoint overwrites the
completed flag with the client-supplied value, so a completed row reverts to
not-completed after `update_progress(user_id=1, article_id=1, completed=false,
score=0)`. -/
theorem claim3_counterexample :
    Platform.articleCompleted pDB0 1 1 = true ∧
    Platform.articleCompleted (Platform.update_progress pDB0 1 1 false 0) 1 1
      = false := by
  decide

/-- C3 amended: once a pair's progress row's completed flag is true, no later
challenge submission (for any pair) sets it back to false; the generic
progress-update endpoint is exempt, since it writes the client-supplied flag. -/
theorem claim3_completed_not_reverted (execOut : String → String → Option String)
    (db : Executor.DB) (uid cid u c : Nat) (code : String)
    (db1 : Executor.DB) (sub : Executor.UserSubmission)
    (h : Executor.submit_challenge execOut db uid cid code = .ok (db1, sub))
    (hc : Executor.completedFlag db u c = true) :
    Executor.completedFlag db1 u c = true := by
  cases hch : db.challenges.find? (fun ch => ch.id == cid) with
  | none =>
    unfold Executor.submit_challenge at h
    rw [hch] at h
    cases h
  | some ch =>
    rw [submit_challenge_of_find execOut db uid cid code ch hch] at h
    cases h
    by_cases hsame : uid = u ∧ cid = c
    · obtain ⟨hu, hcc⟩ := hsame
      subst hu
      subst hcc
      unfold Executor.completedFlag Executor.findProgress
      rw [show ({ db with
          progress := Executor.setProgress db.progress uid cid _
          submissions := _ } : Executor.DB).progress =
          Executor.setProgress db.progress uid cid _ from rfl]
      rw [find_setProgress_self db.progress uid cid _ rfl rfl]
      show (if (Executor.run_test_cases execOut code ch.test_cases).passed ==
          (Executor.run_test_cases execOut code ch.test_cases).total then true
        else (Executor.progressRead db uid cid).completed) = true
      by_cases hcond : ((Executor.run_test_cases execOut code ch.test_cases).passed ==
          (Executor.run_test_cases execOut code ch.test_cases).total) = true
      · simp [hcond]
      · rw [if_neg (by simpa using hcond), progressRead_completed]
        exact hc
    · unfold Executor.completedFlag Executor.findProgress
      rw [show ({ db with
          progress := Executor.setProgress db.progress uid cid _
          submissions := _ } : Executor.DB).progress =
          Executor.setProgress db.progress uid cid _ from rfl]
      rw [find_setProgress_other db.progress uid cid u c _ hsame rfl rfl]
      exact hc

/-- Witness for the amended C3: a later failing submission leaves the pair
completed. -/
theorem claim3_completed_not_reverted_witness :
    ∃ db1 sub, Executor.submit_challenge wExecFail wDBdone 1 1 "bad" = .ok (db1, sub) ∧
      Executor.completedFlag db1 1 1 = true := by
  obtain ⟨db1, sub, hok, -, -⟩ :=
    bestScore_submit wExecFail wDBdone 1 1 "bad" wCh (by decide)
  exact ⟨db1, sub, hok,
    claim3_completed_not_reverted wExecFail wDBdone 1 1 1 1 "bad" db1 sub hok
      (by decide)⟩

/-- Success path of `submit_quiz` on a correct answer. -/
theorem submit_quiz_of_correct (db : Platform.DB) (user_id quiz_id : Nat)
    (answer : String) (quiz : Platform.QuizRow)
    (hq : db.quizzes.find? (fun q => q.id == quiz_id) = some quiz)
    (hmatch : pyUpper answer = pyUpper quiz.correct_answer) :
    Platform.submit_quiz db user_id quiz_id answer =
      .ok ({ db with users := db.users.map fun u =>
            if u.id == user_id then
              { u with total_points := u.total_points + quiz.points }
            else u },
        { correct := true, points_earned := quiz.points, correct_answer := none }) := by
  have hb : (pyUpper answer == pyUpper quiz.correct_answer) = true :=
    beq_iff_eq.mpr hmatch
  unfold Platform.submit_quiz
  rw [hq]
  simp [hb]

/-- Success path of `submit_quiz` on a wrong answer. -/
theorem submit_quiz_of_wrong (db : Platform.DB) (user_id quiz_id : Nat)
    (answer : String) (quiz : Platform.QuizRow)
    (hq : db.quizzes.find? (fun q => q.id == quiz_id) = some quiz)
    (hne : pyUpper answer ≠ pyUpper quiz.correct_answer) :
    Platform.submit_quiz db user_id quiz_id answer =
      .ok (db, { correct := false, points_earned := 0
                 correct_answer := some quiz.correct_answer }) := by
  have hb : (pyUpper answer == pyUpper quiz.correct_answer) = false :=
    beq_eq_false_iff_ne.mpr hne
  unfold Platform.submit_quiz
  rw [hq]
  simp [hb]

/-- A map that fixes every member is the identity on the list. -/
theorem map_id_of_mem {α : Type} (l : List α) (f : α → α)
    (h : ∀ x ∈ l, f x = x) : l.map f = l := by
  induction l with
  | nil => rfl
  | cons x xs ih =>
    rw [List.map_cons, h x (List.mem_cons_self x xs),
      ih fun y hy => h y (List.mem_cons_of_mem x hy)]

/-- C4: for an existing quiz, the submitted answer is compared to the stored
correct answer case-insensitively; a match awards exactly the quiz's point
value (added to the total_points of the users rows with the submitted id)
and returns correct=true with no revealed answer; a mismatch awards zero,
leaves the state unchanged and reveals the stored answer. In either case the
points earned are all or nothing. -/
theorem claim4_submit_quiz (db : Platform.DB) (user_id quiz_id : Nat)
    (answer : String) (quiz : Platform.QuizRow)
    (hq : db.quizzes.find? (fun q => q.id == quiz_id) = some quiz) :
    (pyUpper answer = pyUpper quiz.correct_answer →
      Platform.submit_quiz db user_id quiz_id answer =
        .ok ({ db with users := db.users.map fun u =>
              if u.id == user_id then
                { u with total_points := u.total_points + quiz.points }
              else u },
          { correct := true, points_earned := quiz.points, correct_answer := none })) ∧
    (pyUpper answer ≠ pyUpper quiz.correct_answer →
      Platform.submit_quiz db user_id quiz_id answer =
        .ok (db, { correct := false, points_earned := 0
                   correct_answer := some quiz.correct_answer })) ∧
    (∀ db1 resp, Platform.submit_quiz db user_id quiz_id answer = .ok (db1, resp) →
      resp.points_earned = quiz.points ∨ resp.points_earned = 0) := by
  refine ⟨fun hmatch => submit_quiz_of_correct db user_id quiz_id answer quiz hq hmatch,
    fun hne => submit_quiz_of_wrong db user_id quiz_id answer quiz hq hne, ?_⟩
  intro db1 resp hok
  by_cases hmatch : pyUpper answer = pyUpper quiz.correct_answer
  · rw [submit_quiz_of_correct db user_id quiz_id answer quiz hq hmatch] at hok
    cases hok
    exact Or.inl rfl
  · rw [submit_quiz_of_wrong db user_id quiz_id answer quiz hq hmatch] at hok
    cases hok
    exact Or.inr rfl

/-- Witness for C4: submitting the lowercase letter of the stored answer at
the concrete state awards the quiz's 10 points. -/
theorem claim4_submit_quiz_witness :
    Platform.submit_quiz wQDB 7 1 "b" =
      .ok ({ wQDB with users := wQDB.users.map fun u =>
            if u.id == 7 then
              { u with total_points := u.total_points + wQuiz.points }
            else u },
        { correct := true, points_earned := wQuiz.points, correct_answer := none }) :=
  (claim4_submit_quiz wQDB 7 1 "b" wQuiz (by decide)).1 (by decide)

/-- C10: quiz submission does not validate the submitting user — with an
existing quiz and a correct answer but a user id matching no users row, the
call still succeeds with correct=true and the quiz's full point value, and
the users table is unchanged. -/
theorem claim10_submit_quiz_unknown_user (db : Platform.DB)
    (user_id quiz_id : Nat) (answer : String) (quiz : Platform.QuizRow)
    (hq : db.quizzes.find? (fun q => q.id == quiz_id) = some quiz)
    (hmatch : pyUpper answer = pyUpper quiz.correct_answer)
    (huser : ∀ u ∈ db.users, u.id ≠ user_id) :
    Platform.submit_quiz db user_id quiz_id answer =
      .ok (db, { correct := true, points_earned := quiz.points
                 correct_answer := none }) := by
  rw [submit_quiz_of_correct db user_id quiz_id answer quiz hq hmatch]
  have hmap : (db.users.map fun u =>
      if u.id == user_id then
        { u with total_points := u.total_points + quiz.points }
      else u) = db.users := by
    apply map_id_of_mem
    intro u hu
    rw [if_neg (by simpa using huser u hu)]
  rw [hmap]

/-- Witness for C10: at the concrete state, user id 99 matches no users row,
yet the correct answer is accepted and awarded, and the state is unchanged. -/
theorem claim10_submit_quiz_unknown_user_witness :
    Platform.submit_quiz wQDB 99 1 "b" =
      .ok (wQDB, { correct := true, points_earned := wQuiz.points
                   correct_answer := none }) :=
  claim10_submit_quiz_unknown_user wQDB 99 1 "b" wQuiz
    (by decide) (by decide) (by decide)

/-- C5 counterexample: with total_attempts = completed_count = 0 (and
active_days = 30, avg_score = 100) the completion rate is 0/max(0,1) = 0, so
the skill estimate is 0.25 + 0.5 + 0 + 0.1 = 0.85, not exactly 1.0 as the
claim asserts for every input with completed_count = total_attempts. -/
theorem claim5_counterexample :
    Platform.user_skill (Platform.preprocess_user_data 0 100 0 30) = 17/20 ∧
    Platform.user_skill (Platform.preprocess_user_data 0 100 0 30) ≠ 1 := by
  have h : Platform.user_skill (Platform.preprocess_user_data 0 100 0 30) = 17/20 := by
    norm_num [Platform.user_skill, Platform.preprocess_user_data, min_def]
  exact ⟨h, by rw [h]; norm_num⟩

/-- C5 amended: the skill estimate is the fixed weighted sum 0.25/0.50/0.15/
0.10 of the four feature scores; the label comes from the absolute difference
against the per-level constant (beginner 0.3, intermediate 0.6, advanced 0.9)
with thresholds 0.3 and 0.6; and for active_days = 30, avg_score = 100 and
completed_count = total_attempts ≥ 1 the skill is exactly 1.0, giving
"Easy" against the advanced constant. -/
theorem claim5_skill_formula (f : Platform.UserFeatures) (lv : String)
    (ta : Nat) (hta : 1 ≤ ta) :
    Platform.user_skill f =
        f.engagement_score * (25/100) + f.performance_score * (50/100) +
          f.completion_rate * (15/100) + f.consistency_score * (10/100) ∧
      (Platform.predict_difficulty f lv).predicted_difficulty =
        (if |Platform.level_weight lv - Platform.user_skill f| < 3/10 then "Easy"
         else if |Platform.level_weight lv - Platform.user_skill f| < 6/10 then
           "Moderate"
         else "Challenging") ∧
      Platform.level_weight "beginner" = 3/10 ∧
      Platform.level_weight "intermediate" = 6/10 ∧
      Platform.level_weight "advanced" = 9/10 ∧
      Platform.user_skill (Platform.preprocess_user_data ta 100 ta 30) = 1 ∧
      (Platform.predict_difficulty (Platform.preprocess_user_data ta 100 ta 30)
        "advanced").predicted_difficulty = "Easy" := by
  have hlw : Platform.level_weight "advanced" = 9/10 := by
    simp [Platform.level_weight]
  have htaQ : ((ta : ℚ)) ≠ 0 := by
    have : (0 : ℚ) < (ta : ℚ) := by exact_mod_cast hta
    exact ne_of_gt this
  have hmax : max ta 1 = ta := Nat.max_eq_left hta
  have hskill : Platform.user_skill (Platform.preprocess_user_data ta 100 ta 30)
      = 1 := by
    norm_num [Platform.user_skill, Platform.preprocess_user_data, hmax, min_def,
      div_self htaQ]
  have habs : |Platform.level_weight "advanced" -
      Platform.user_skill (Platform.preprocess_user_data ta 100 ta 30)| = 1/10 := by
    rw [hlw, hskill, show (9/10 : ℚ) - 1 = -(1/10) by norm_num, abs_neg,
      abs_of_nonneg (by norm_num)]
  refine ⟨rfl, rfl, by simp [Platform.level_weight],
    by simp [Platform.level_weight], hlw, hskill, ?_⟩
  show (if |Platform.level_weight "advanced" -
        Platform.user_skill (Platform.preprocess_user_data ta 100 ta 30)| < 3/10 then
      "Easy"
    else if |Platform.level_weight "advanced" -
        Platform.user_skill (Platform.preprocess_user_data ta 100 ta 30)| < 6/10 then
      "Moderate"
    else "Challenging") = "Easy"
  rw [habs, if_pos (by norm_num)]

/-- Witness for the amended C5: the formula and the instance at one attempt. -/
theorem claim5_skill_formula_witness :
    Platform.user_skill (Platform.preprocess_user_data 1 50 0 7) =
        (Platform.preprocess_user_data 1 50 0 7).engagement_score * (25/100) +
          (Platform.preprocess_user_data 1 50 0 7).performance_score * (50/100) +
          (Platform.preprocess_user_data 1 50 0 7).completion_rate * (15/100) +
          (Platform.preprocess_user_data 1 50 0 7).consistency_score * (10/100) ∧
      (Platform.predict_difficulty (Platform.preprocess_user_data 1 50 0 7)
          "beginner").predicted_difficulty =
        (if |Platform.level_weight "beginner" -
            Platform.user_skill (Platform.preprocess_user_data 1 50 0 7)| < 3/10 then
          "Easy"
         else if |Platform.level_weight "beginner" -
            Platform.user_skill (Platform.preprocess_user_data 1 50 0 7)| < 6/10 then
          "Moderate"
         else "Challenging") ∧
      Platform.level_weight "beginner" = 3/10 ∧
      Platform.level_weight "intermediate" = 6/10 ∧
      Platform.level_weight "advanced" = 9/10 ∧
      Platform.user_skill (Platform.preprocess_user_data 1 100 1 30) = 1 ∧
      (Platform.predict_difficulty (Platform.preprocess_user_data 1 100 1 30)
        "advanced").predicted_difficulty = "Easy" :=
  claim5_skill_formula (Platform.preprocess_user_data 1 50 0 7) "beginner" 1
    (by decide)

/-- C6 counterexample: the performance score is avg_score/100 with no
clamping, so an average score above 100 (reachable, since the progress
endpoint stores arbitrary client-supplied integer scores) takes it above the
unit interval: at avg_score = 200 it is 2. -/
theorem claim6_counterexample :
    (Platform.preprocess_user_data 1 200 1 1).performance_score = 2 ∧
    ¬ (Platform.preprocess_user_data 1 200 1 1).performance_score ≤ 1 := by
  have h : (Platform.preprocess_user_data 1 200 1 1).performance_score = 2 := by
    norm_num [Platform.preprocess_user_data]
  exact ⟨h, by rw [h]; norm_num⟩

/-- C6 amended: engagement and consistency are always clamped to [0, 1];
completion_rate lies in [0, 1] whenever completed_count ≤ total_attempts (as
the aggregation query guarantees); performance = avg_score/100 is not
clamped, and lies in [0, 1] exactly when 0 ≤ avg_score ≤ 100. -/
theorem claim6_feature_bounds (total_attempts : Nat) (avg_score : ℚ)
    (completed_count active_days : Nat) :
    (0 ≤ (Platform.preprocess_user_data total_attempts avg_score completed_count
          active_days).engagement_score ∧
        (Platform.preprocess_user_data total_attempts avg_score completed_count
          active_days).engagement_score ≤ 1) ∧
      (0 ≤ (Platform.preprocess_user_data total_attempts avg_score completed_count
          active_days).consistency_score ∧
        (Platform.preprocess_user_data total_attempts avg_score completed_count
          active_days).consistency_score ≤ 1) ∧
      (completed_count ≤ total_attempts →
        0 ≤ (Platform.preprocess_user_data total_attempts avg_score completed_count
            active_days).completion_rate ∧
          (Platform.preprocess_user_data total_attempts avg_score completed_count
            active_days).completion_rate ≤ 1) ∧
      (0 ≤ avg_score → avg_score ≤ 100 →
        0 ≤ (Platform.preprocess_user_data total_attempts avg_score completed_count
            active_days).performance_score ∧
          (Platform.preprocess_user_data total_attempts avg_score completed_count
            active_days).performance_score ≤ 1) := by
  refine ⟨⟨?_, ?_⟩, ⟨?_, ?_⟩, ?_, ?_⟩
  · show 0 ≤ min ((active_days : ℚ) / 30) 1
    exact le_min (by positivity) (by norm_num)
  · exact min_le_right _ _
  · show 0 ≤ min ((active_days : ℚ) / 14) 1
    exact le_min (by positivity) (by norm_num)
  · exact min_le_right _ _
  · intro hle
    constructor
    · show 0 ≤ (completed_count : ℚ) / ((max total_attempts 1 : Nat) : ℚ)
      positivity
    · have hmaxpos : 0 < max total_attempts 1 :=
        Nat.lt_of_lt_of_le Nat.zero_lt_one (Nat.le_max_right total_attempts 1)
      have hpos : (0 : ℚ) < ((max total_attempts 1 : Nat) : ℚ) := by
        exact_mod_cast hmaxpos
      have hccle : completed_count ≤ max total_attempts 1 :=
        Nat.le_trans hle (Nat.le_max_left total_attempts 1)
      have hcast : (completed_count : ℚ) ≤ ((max total_attempts 1 : Nat) : ℚ) := by
        exact_mod_cast hccle
      show (completed_count : ℚ) / ((max total_attempts 1 : Nat) : ℚ) ≤ 1
      rw [div_le_one hpos]
      exact hcast
  · intro h0 h100
    show 0 ≤ (if avg_score = 0 then 0 else avg_score / 100) ∧
      (if avg_score = 0 then 0 else avg_score / 100) ≤ 1
    by_cases hz : avg_score = 0
    · simp [hz]
    · simp only [hz, if_false]
      exact ⟨by positivity, by rw [div_le_one (by norm_num)]; linarith⟩

/-- Witness for the amended C6 at one concrete aggregate input. -/
theorem claim6_feature_bounds_witness :
    (0 ≤ (Platform.preprocess_user_data 4 80 2 10).engagement_score ∧
        (Platform.preprocess_user_data 4 80 2 10).engagement_score ≤ 1) ∧
      (0 ≤ (Platform.preprocess_user_data 4 80 2 10).consistency_score ∧
        (Platform.preprocess_user_data 4 80 2 10).consistency_score ≤ 1) ∧
      (2 ≤ 4 →
        0 ≤ (Platform.preprocess_user_data 4 80 2 10).completion_rate ∧
          (Platform.preprocess_user_data 4 80 2 10).completion_rate ≤ 1) ∧
      ((0 : ℚ) ≤ 80 → (80 : ℚ) ≤ 100 →
        0 ≤ (Platform.preprocess_user_data 4 80 2 10).performance_score ∧
          (Platform.preprocess_user_data 4 80 2 10).performance_score ≤ 1) :=
  claim6_feature_bounds 4 80 2 10

/-- C7 counterexample: the in-memory variant's register checks only the
username, so a second registration with a fresh username but an email already
registered succeeds, leaving two users sharing an email. -/
theorem claim7_counterexample :
    Mem.register [{ username := "a", email := "e@x", password := "p" }]
        { username := "b", email := "e@x", password := "q" } =
      .ok [{ username := "a", email := "e@x", password := "p" },
           { username := "b", email := "e@x", password := "q" }] ∧
    ¬ ([{ username := "a", email := "e@x", password := "p" },
        { username := "b", email := "e@x", password := "q" }].map
          fun u : Mem.MemUser => u.email).Nodup := by
  decide

/-- C7 amended: the SQL-backed register rejects a request whose username or
email is already taken and otherwise appends the new user, preserving
uniqueness of usernames and of emails; the in-memory register checks (and
preserves uniqueness of) only the username — a duplicate username conflicts
in every variant, but the in-memory variant admits duplicate emails. -/
theorem claim7_register_uniqueness (hash : String → String) (db : Executor.DB)
    (username email password : String) (l : List Mem.MemUser) (m : Mem.MemUser) :
    ((db.users.any fun x => x.username == username || x.email == email) = true →
      Executor.register hash db username email password = .error .badRequest) ∧
    ((db.users.any fun x => x.username == username || x.email == email) = false →
      ∃ nu, Executor.register hash db username email password =
          .ok ({ db with users := db.users ++ [nu] }, nu) ∧
        nu.username = username ∧ nu.email = email ∧
        ((db.users.map fun u => u.username).Nodup →
          ((db.users ++ [nu]).map fun u => u.username).Nodup) ∧
        ((db.users.map fun u => u.email).Nodup →
          ((db.users ++ [nu]).map fun u => u.email).Nodup)) ∧
    ((l.any fun x => x.username == m.username) = true →
      Mem.register l m = .error .badRequest) ∧
    ((l.any fun x => x.username == m.username) = false →
      Mem.register l m = .ok (l ++ [m]) ∧
      ((l.map fun u => u.username).Nodup →
        ((l ++ [m]).map fun u => u.username).Nodup)) := by
  refine ⟨?_, ?_, ?_, ?_⟩
  · intro h
    unfold Executor.register
    rw [if_pos h]
  · intro h
    have hall : ∀ x ∈ db.users, (x.username == username || x.email == email) = false := by
      intro x hx
      simpa using List.any_eq_false.mp h x hx
    refine ⟨Executor.UserRow.mk (db.users.length + 1) username email
      (hash password), ?_, rfl, rfl, ?_, ?_⟩
    · unfold Executor.register
      rw [if_neg (by simp [h])]
    · intro hnd
      rw [List.map_append]
      rw [List.nodup_append]
      refine ⟨hnd, List.nodup_singleton _, ?_⟩
      intro s hs hs1
      obtain ⟨x, hx, hxs⟩ := List.mem_map.mp hs
      have := hall x hx
      rw [Bool.or_eq_false_iff] at this
      have hne : x.username ≠ username := by
        simpa using this.1
      have : s = username := by simpa using hs1
      exact hne (by rw [← hxs] at this; exact this)
    · intro hnd
      rw [List.map_append]
      rw [List.nodup_append]
      refine ⟨hnd, List.nodup_singleton _, ?_⟩
      intro s hs hs1
      obtain ⟨x, hx, hxs⟩ := List.mem_map.mp hs
      have := hall x hx
      rw [Bool.or_eq_false_iff] at this
      have hne : x.email ≠ email := by
        simpa using this.2
      have : s = email := by simpa using hs1
      exact hne (by rw [← hxs] at this; exact this)
  · intro h
    unfold Mem.register
    rw [if_pos h]
  · intro h
    have hall : ∀ x ∈ l, (x.username == m.username) = false := by
      intro x hx
      simpa using List.any_eq_false.mp h x hx
    refine ⟨?_, ?_⟩
    · unfold Mem.register
      rw [if_neg (by simp [h])]
    · intro hnd
      rw [List.map_append]
      rw [List.nodup_append]
      refine ⟨hnd, List.nodup_singleton _, ?_⟩
      intro s hs hs1
      obtain ⟨x, hx, hxs⟩ := List.mem_map.mp hs
      have hne : x.username ≠ m.username := by
        simpa using hall x hx
      have : s = m.username := by simpa using hs1
      exact hne (by rw [← hxs] at this; exact this)

/-- Witness for the amended C7: re-registering the taken username `alice`
at the concrete state yields the conflict error. -/
theorem claim7_register_uniqueness_witness :
    Executor.register (fun s => s) wDB "alice" "b@x" "pw" = .error .badRequest :=
  (claim7_register_uniqueness (fun s => s) wDB "alice" "b@x" "pw" []
    { username := "x", email := "e", password := "p" }).1 (by decide)

/-- C8 counterexample: submitting an empty body against an existing
challenge is not rejected with an invalid-input signal — the handler
succeeds and persists a submission row whose code is empty. -/
theorem claim8_counterexample :
    ∃ db1 sub, Executor.submit_challenge wExec wDB 1 1 "" = .ok (db1, sub) ∧
      db1.submissions = wDB.submissions ++ [sub] ∧ sub.code = "" :=
  ⟨_, _, submit_challenge_of_find wExec wDB 1 1 "" wCh (by decide), rfl, rfl⟩

/-- C8 amended: a submission naming a nonexistent challenge or quiz fails
with not-found; an empty submission body is not rejected by the submit
endpoints — the challenge handler records it as an ordinary submission —
and only the standalone code-execute endpoint rejects an empty or missing
body with invalid-input. -/
theorem claim8_submission_validation (execOut : String → String → Option String)
    (db : Executor.DB) (uid cid : Nat) (code : String)
    (pdb : Platform.DB) (puid qid : Nat) (answer : String)
    (runner : String → String) (oc : Option String) :
    (db.challenges.find? (fun c => c.id == cid) = none →
      Executor.submit_challenge execOut db uid cid code = .error .notFound) ∧
    (pdb.quizzes.find? (fun q => q.id == qid) = none →
      Platform.submit_quiz pdb puid qid answer = .error .notFound) ∧
    (∀ ch, db.challenges.find? (fun c => c.id == cid) = some ch →
      ∃ db1 sub, Executor.submit_challenge execOut db uid cid "" = .ok (db1, sub) ∧
        db1.submissions = db.submissions ++ [sub] ∧ sub.code = "") ∧
    (oc.getD "" = "" → Executor.execute_code runner oc = .error .badRequest) := by
  refine ⟨?_, ?_, ?_, ?_⟩
  · intro h
    unfold Executor.submit_challenge
    rw [h]
  · intro h
    unfold Platform.submit_quiz
    rw [h]
  · intro ch hch
    exact ⟨_, _, submit_challenge_of_find execOut db uid cid "" ch hch, rfl, rfl⟩
  · intro h
    unfold Executor.execute_code
    rw [if_pos h]

/-- Witness for the amended C8: submitting against the absent challenge id 99
at the concrete state yields the not-found error. -/
theorem claim8_submission_validation_witness :
    Executor.submit_challenge wExec wDB 1 99 "code" = .error .notFound :=
  (claim8_submission_validation wExec wDB 1 99 "code" wQDB 7 99 "b"
    (fun s => s) none).1 (by decide)

/-- C9 counterexample: the unfiltered course listing orders by (level,
order_num); on the seeded data the level strings sort as advanced <
beginner < intermediate, so the returned order_num sequence is
[5, 1, 2, 3, 4] — not ascending in the declared order key. -/
theorem claim9_counterexample :
    ((Platform.get_courses wCDB none).map fun c => c.order_num) = [5, 1, 2, 3, 4] ∧
    ¬ ((Platform.get_courses wCDB none).map fun c => c.order_num).Sorted
      (fun a b : Int => a ≤ b) := by
  decide

/-- C9 amended: the lessons listing is ascending in the order column, and a
level-filtered course listing is ascending in order_num; the unfiltered
course listing is sorted by (level, order_num) — ascending in order_num only
within each level — and the in-memory variant's static lessons list is as
written in ascending order. -/
theorem claim9_listing_order (db : Executor.DB) (pdb : Platform.DB)
    (lv : String) (hlv : lv ≠ "") :
    (Executor.get_lessons db).Sorted Executor.lessonLE ∧
      (Platform.get_courses pdb (some lv)).Sorted Platform.courseOrderLE ∧
      (Platform.get_courses pdb none).Sorted Platform.courseLevelLE ∧
      (Mem.get_lessons.map fun l => l.order).Sorted (fun a b => a ≤ b) := by
  refine ⟨List.sorted_insertionSort _ _, ?_, ?_, by decide⟩
  · unfold Platform.get_courses
    rw [if_pos (by simpa using hlv)]
    exact List.sorted_insertionSort _ _
  · unfold Platform.get_courses
    rw [if_neg (by simp)]
    exact List.sorted_insertionSort _ _

/-- Witness for the amended C9 at the concrete states and the level filter
`beginner`. -/
theorem claim9_listing_order_witness :
    (Executor.get_lessons wDB).Sorted Executor.lessonLE ∧
      (Platform.get_courses wCDB (some "beginner")).Sorted Platform.courseOrderLE ∧
      (Platform.get_courses wCDB none).Sorted Platform.courseLevelLE ∧
      (Mem.get_lessons.map fun l => l.order).Sorted (fun a b => a ≤ b) :=
  claim9_listing_order wDB wCDB "beginner" (by decide)
